import Mathlib

/-!
Shallow embedding of the structural-inference engine of `parse-structured.ts`
(class `StructuredExcelParser`), together with theorems settling the frozen
claims about it.  Row/column coordinates are `Int` (JavaScript numbers used as
integers); cell text is `String`; the truthiness of `borderStyles || borders`
on a cell is carried as a single `Bool` field.  JavaScript regular expressions
are translated into explicit character-list scanners.
-/

namespace ParseStructured

/-- JavaScript whitespace class membership (the characters `\s` matches that
can occur in this document family). -/
def jsSpace (c : Char) : Bool :=
  c = ' ' || c = '\t' || c = '\n' || c = '\r' || c = '\x0b' || c = '\x0c' ||
  c = ' ' || c = '　'

/-- Line terminators, which the JavaScript `.` regex class does not match. -/
def jsNewline (c : Char) : Bool :=
  c = '\n' || c = '\r' || c = ' ' || c = ' '

/-- A character removed by `String.prototype.trim` (JavaScript WhiteSpace or
LineTerminator). -/
def jsTrimmable (c : Char) : Bool := jsSpace c || jsNewline c

/-- `String.prototype.trim`, realised over the character list (Lean's own
`String.trim` is `Substring`-based and removes a smaller character class). -/
def jsTrim (s : String) : String :=
  String.mk (((s.toList.dropWhile jsTrimmable).reverse.dropWhile
    jsTrimmable).reverse)

/-- `String.prototype.startsWith`, realised over the character list. -/
def strStartsWith (s pre : String) : Bool :=
  pre.toList.isPrefixOf s.toList

/-- `String.prototype.substring(0, n)` for Basic-Multilingual-Plane text
(the first `n` characters). -/
def strTake (s : String) (n : Nat) : String :=
  String.mk (s.toList.take n)

/-- `\d` of JavaScript regexes. -/
def isDigitChar (c : Char) : Bool := '0' ≤ c && c ≤ '9'

/-- `[A-Z]` of JavaScript regexes. -/
def isUpperChar (c : Char) : Bool := 'A' ≤ c && c ≤ 'Z'

/-- The Chinese numerals accepted by the heading regexes: `[一二三四五六七八九十]`. -/
def isCnNumeral (c : Char) : Bool :=
  (['一', '二', '三', '四', '五', '六', '七', '八', '九', '十'] : List Char).contains c

/-- `[一二三四五六七八九十\d]`, the numeral class of the chapter/section regexes. -/
def cnOrDigit (c : Char) : Bool := isCnNumeral c || isDigitChar c

/-- `String.prototype.includes`: substring containment. -/
def strContains (s pat : String) : Bool :=
  s.toList.tails.any (fun t => pat.toList.isPrefixOf t)

/-- `value.replace(/\s+/g, '')`: remove every whitespace character. -/
def stripSpaces (s : String) : String :=
  String.mk (s.toList.filter (fun c => !(jsSpace c)))

/-- Integer for-loop range `for (x = a; x <= b; x++)`, empty when `b < a`. -/
def intRange (a b : Int) : List Int :=
  (List.range (b - a + 1).toNat).map (fun k => a + Int.ofNat k)

/-- A cell of the parsed workbook (`CellData` of the missing `src/types.ts`,
restricted to the fields `parse-structured.ts` reads): 1-based coordinates,
the already-resolved plain-text value (`""` when absent), the font name
(`cell.font?.name`), and the truthiness of `cell.borderStyles || cell.borders`. -/
structure CellData where
  row : Int
  col : Int
  value : String
  fontName : Option String
  hasBorderInfo : Bool
deriving DecidableEq

/-- The parsed workbook (`ParsedExcelData`): the cell list plus the
`metadata.totalRows` / `metadata.totalCols` extents read by the parser. -/
structure ParsedExcelData where
  cells : List CellData
  totalRows : Int
  totalCols : Int
deriving DecidableEq

/-- `getCell`: the constructor stores every cell in a map keyed by
`` `${row}-${col}` `` with later entries overwriting earlier ones, so lookup
returns the last cell listed at the coordinate (the key string is injective on
integer pairs). -/
def getCell (d : ParsedExcelData) (r c : Int) : Option CellData :=
  d.cells.reverse.find? (fun cell => cell.row == r && cell.col == c)

/-- `getCellValue`: empty for a missing cell or falsy value, otherwise the
trimmed text. -/
def getCellValue (d : ParsedExcelData) (r c : Int) : String :=
  match getCell d r c with
  | none => ""
  | some cell => if cell.value = "" then "" else jsTrim cell.value

/-- `isNormCode`: `/^\d+[A-Z]-\d+$/.test(value)`. -/
def isNormCode (value : String) : Bool :=
  let l := value.toList
  let s1 := l.span isDigitChar
  match s1.2 with
  | u :: rest =>
    !s1.1.isEmpty && isUpperChar u &&
      (match rest with
       | '-' :: rest2 =>
         let s2 := rest2.span isDigitChar
         !s2.1.isEmpty && s2.2.isEmpty
       | _ => false)
  | [] => false

/-- `/^第[一二三四五六七八九十\d]+章/.test(value)`. -/
def hasChapterPattern (value : String) : Bool :=
  match value.toList with
  | '第' :: rest =>
    let s := rest.span cnOrDigit
    !s.1.isEmpty && s.2.head? == some '章'
  | _ => false

/-- `/^第[一二三四五六七八九十\d]+节/.test(value)`. -/
def hasSectionPattern (value : String) : Bool :=
  match value.toList with
  | '第' :: rest =>
    let s := rest.span cnOrDigit
    !s.1.isEmpty && s.2.head? == some '节'
  | _ => false

/-- `/^[一二三四五六七八九十]+\s+、/.test(value)`. -/
def hasSpacedSubSectionPattern (value : String) : Bool :=
  let s1 := value.toList.span isCnNumeral
  let s2 := s1.2.span jsSpace
  !s1.1.isEmpty && !s2.1.isEmpty && s2.2.head? == some '、'

/-- `/^\(\d+\)/.test(value)`. -/
def hasParenDigitsPattern (value : String) : Bool :=
  match value.toList with
  | '(' :: rest =>
    let s := rest.span isDigitChar
    !s.1.isEmpty && s.2.head? == some ')'
  | _ => false

/-- `isChapterTitle`: the chapter regex, confirmed by the SimHei font whenever
a cell is supplied. -/
def isChapterTitle (value : String) (cell : Option CellData) : Bool :=
  let hasPattern := hasChapterPattern value
  match cell with
  | none => hasPattern
  | some c => if !hasPattern then hasPattern else c.fontName == some "SimHei"

/-- `isSectionTitle`: only SimHei cells qualify, then the section regex. -/
def isSectionTitle (value : String) (cell : Option CellData) : Bool :=
  if !((cell.bind (fun c => c.fontName)) == some "SimHei") then false
  else hasSectionPattern value

/-- `isSubSectionTitle`: only SimHei cells qualify, then the spaced
`CN-numeral 、` pattern or the `(digits)` pattern. -/
def isSubSectionTitle (value : String) (cell : Option CellData) : Bool :=
  if !((cell.bind (fun c => c.fontName)) == some "SimHei") then false
  else if hasSpacedSubSectionPattern value then true
  else hasParenDigitsPattern value

/-- `isWorkContent`. -/
def isWorkContent (value : String) : Bool :=
  strContains value "工作" && strContains value "内容" && strContains value "："

/-- `isNote`. -/
def isNote (value : String) : Bool :=
  strStartsWith value "注" && (strContains value ":" || strContains value "：")

/-- `isContinuationTable`. -/
def isContinuationTable (value : String) : Bool :=
  strContains value "续表" || strContains value "（续）" || strContains value "(续)"

/-- The tail `(.+?)(?:\s*·|$)` shared by every title regex: lazily grow the
captured name one (non-line-terminator) character at a time until the
remainder starts with `\s*·`, falling back to the whole remainder at the end
of the string.  (All call sites pass trimmed cell text, so the regex engine's
backtracking of the preceding greedy `\s*` into the capture can never fire.) -/
def lazySplitGo (pre rest : List Char) : Option (List Char) :=
  match rest with
  | [] => none
  | c :: rs =>
    if jsNewline c then none
    else
      let pre2 := pre ++ [c]
      if (rs.dropWhile jsSpace).head? == some '·' then some pre2
      else if rs.isEmpty then some pre2
      else lazySplitGo pre2 rs

/-- The captured name of `(.+?)(?:\s*·|$)` applied to `l`, `none` when the
regex cannot complete. -/
def lazySplit (l : List Char) : Option (List Char) :=
  lazySplitGo [] l

/-- `parseChapterTitle`: `/^第([一二三四五六七八九十\d]+)章\s*(.+?)(?:\s*·|$)/`,
returning (number, trimmed name). -/
def parseChapterTitle (value : String) : Option (String × String) :=
  match value.toList with
  | '第' :: rest =>
    let s := rest.span cnOrDigit
    if s.1.isEmpty then none
    else
      match s.2 with
      | '章' :: r2 =>
        match lazySplit (r2.dropWhile jsSpace) with
        | some namePart => some (String.mk s.1, jsTrim (String.mk namePart))
        | none => none
      | _ => none
  | _ => none

/-- `parseSectionTitle`: first `/^(第[一二三四五六七八九十\d]+节)\s*(.+?)(?:\s*·|$)/`,
then `/^(\d+)\.\s*(.+?)(?:\s*·|$)/`; returns (symbol, trimmed name). -/
def parseSectionTitle (value : String) : Option (String × String) :=
  let branch1 : Option (String × String) :=
    match value.toList with
    | '第' :: rest =>
      let s := rest.span cnOrDigit
      if s.1.isEmpty then none
      else
        match s.2 with
        | '节' :: r2 =>
          match lazySplit (r2.dropWhile jsSpace) with
          | some namePart =>
            some (String.mk ('第' :: s.1 ++ ['节']), jsTrim (String.mk namePart))
          | none => none
        | _ => none
    | _ => none
  match branch1 with
  | some r => some r
  | none =>
    let s := value.toList.span isDigitChar
    if s.1.isEmpty then none
    else
      match s.2 with
      | '.' :: r2 =>
        match lazySplit (r2.dropWhile jsSpace) with
        | some namePart => some (String.mk s.1 ++ ".", jsTrim (String.mk namePart))
        | none => none
      | _ => none

/-- `parseSubSectionTitle`: the spaced `CN、` branch, then the unspaced one,
then the `(digits)` branch; returns (symbol, trimmed name). -/
def parseSubSectionTitle (value : String) : Option (String × String) :=
  let l := value.toList
  let branch1 : Option (String × String) :=
    let s1 := l.span isCnNumeral
    let s2 := s1.2.span jsSpace
    if s1.1.isEmpty || s2.1.isEmpty then none
    else
      match s2.2 with
      | '、' :: r2 =>
        match lazySplit (r2.dropWhile jsSpace) with
        | some namePart => some (String.mk s1.1 ++ " 、", jsTrim (String.mk namePart))
        | none => none
      | _ => none
  match branch1 with
  | some r => some r
  | none =>
    let branch2 : Option (String × String) :=
      let s1 := l.span isCnNumeral
      if s1.1.isEmpty then none
      else
        match s1.2 with
        | '、' :: r2 =>
          match lazySplit (r2.dropWhile jsSpace) with
          | some namePart => some (String.mk s1.1 ++ "、", jsTrim (String.mk namePart))
          | none => none
        | _ => none
    match branch2 with
    | some r => some r
    | none =>
      match l with
      | '(' :: rest =>
        let s := rest.span isDigitChar
        if s.1.isEmpty then none
        else
          match s.2 with
          | ')' :: r2 =>
            match lazySplit (r2.dropWhile jsSpace) with
            | some namePart =>
              some ("(" ++ String.mk s.1 ++ ")", jsTrim (String.mk namePart))
            | none => none
          | _ => none
      | _ => none

/-- Separator class of `parseMultipleValues`: `[,，、\n\r]`. -/
def isSeparatorChar (c : Char) : Bool :=
  c = ',' || c = '，' || c = '、' || c = '\n' || c = '\r'

/-- Split a character list at separator characters. -/
def splitAtSeps : List Char → List (List Char)
  | [] => [[]]
  | c :: cs =>
    if isSeparatorChar c then [] :: splitAtSeps cs
    else
      match splitAtSeps cs with
      | [] => [[c]]
      | t :: ts => (c :: t) :: ts

/-- `parseMultipleValues`: split on `/[,，、\n\r]+/`, trim each piece and drop
the empty ones (splitting at single separators and filtering empties is
equivalent to splitting at separator runs). -/
def parseMultipleValues (cellValue : String) : List String :=
  if jsTrim cellValue = "" then []
  else
    ((splitAtSeps cellValue.toList).map (fun l => jsTrim (String.mk l))).filter
      (fun v => v.length > 0)

/-- Result record of `parseConsumptionValue`. -/
structure ParsedConsumption where
  consumption : String
  isPrimary : Bool
deriving DecidableEq

/-- `/^\(.*\)$/.test(t)`: first character `(`, last character `)`, and no
line terminator in between (`.` does not match line terminators). -/
def isParenWrapped (t : String) : Bool :=
  match t.toList with
  | '(' :: (c :: cs) =>
    let mid := (c :: cs).dropLast
    (c :: cs).getLast? == some ')' && !(mid.any jsNewline)
  | _ => false

/-- `parseConsumptionValue`: empty/`-`/`0` become `("0", false)`, otherwise
the trimmed token, with a fully paren-wrapped token stripped of its
parentheses and flagged primary. -/
def parseConsumptionValue (value : String) : ParsedConsumption :=
  if value = "" || jsTrim value = "" || value = "-" || value = "0" then
    { consumption := "0", isPrimary := false }
  else
    let trimmedValue := jsTrim value
    let isPrimary := isParenWrapped trimmedValue
    let numericValue :=
      if isPrimary then String.mk ((trimmedValue.toList.drop 1).dropLast)
      else trimmedValue
    { consumption := numericValue, isPrimary := isPrimary }

/-- Code-unit `<` on strings as character lists (JavaScript default string
comparison; all norm codes are ASCII, where code units and code points agree). -/
def jsLtChars : List Char → List Char → Bool
  | _, [] => false
  | [], _ :: _ => true
  | a :: as, b :: bs =>
    if a.toNat < b.toNat then true
    else if b.toNat < a.toNat then false
    else jsLtChars as bs

/-- `a <= b` in JavaScript string order. -/
def jsLeString (a b : String) : Bool := !(jsLtChars b.toList a.toList)

/-- The comparison relation used by the default `Array.prototype.sort` on
strings. -/
def jsLeRel (a b : String) : Prop := jsLeString a b = true

instance : DecidableRel jsLeRel := fun a b => decEq (jsLeString a b) true

/-- `normCodes.sort()`: the default JavaScript sort produces the unique
stable code-unit-ascending ordering, here realised by insertion sort. -/
def sortStrings (l : List String) : List String :=
  List.insertionSort jsLeRel l

/-- One emitted `ResourceConsumption`. -/
structure ResourceConsumption where
  name : String
  specification : String
  unit : String
  consumption : String
  isPrimary : Bool
  category : String
  categoryCode : Int
deriving DecidableEq

/-- A value stored in a consumption map: either the parsed object
`{ value, originalString, isPrimary }` written by `parseResourcesSection`, or
a bare string/number handled by the fallback branch of
`buildNormResourceRelationships`. -/
inductive ConsVal where
  | obj (value : String) (originalString : String) (isPrimary : Bool)
  | raw (s : String)
deriving DecidableEq

/-- JavaScript object assignment `m[k] = v` on a string-keyed map. -/
def assocSet (m : List (String × ConsVal)) (k : String) (v : ConsVal) :
    List (String × ConsVal) :=
  if m.any (fun p => p.1 == k) then
    m.map (fun p => if p.1 == k then (k, v) else p)
  else m ++ [(k, v)]

/-- JavaScript property read `m[k]` (`none` for `undefined`). -/
def assocGet (m : List (String × ConsVal)) (k : String) : Option ConsVal :=
  (m.find? (fun p => p.1 == k)).map (fun p => p.2)

/-- `NormInfo`: a norm code with its grid position and, once built, its
resource consumptions. -/
structure NormInfo where
  code : String
  row : Int
  col : Int
  resources : Option (List ResourceConsumption) := none
deriving DecidableEq

/-- `ResourceInfo`: one labor/material/machinery resource row, with the
positionally aligned name/unit/consumption token sequences. -/
structure ResourceInfo where
  category : String
  names : List String
  units : List String
  consumptions : List (List (String × ConsVal))
  row : Int
deriving DecidableEq

/-- The literal `categoryCodeMap` object: `人工 → 1`, `材料 → 2`, `机械 → 3`. -/
def categoryCodeLookup (category : String) : Option Int :=
  if category = "人工" then some 1
  else if category = "材料" then some 2
  else if category = "机械" then some 3
  else none

/-- `buildNormResourceRelationships`: for each norm, walk every resource row
and every resource name index; a defined, non-`"0"`, non-`"-"` consumption
entry yields a `ResourceConsumption` whose category code is 5 when the entry
is primary and the `categoryCodeMap` value (default 5) otherwise. -/
def buildNormResourceRelationships (normCodes : List NormInfo)
    (resources : List ResourceInfo) : List NormInfo :=
  normCodes.map (fun norm =>
    let normResources : List ResourceConsumption :=
      resources.foldl (fun acc resource =>
        let categoryCode := (categoryCodeLookup resource.category).getD 5
        (List.range resource.names.length).foldl (fun acc2 nameIndex =>
          let name := resource.names.getD nameIndex ""
          let unit := resource.units.getD nameIndex ""
          let consumptionMap := resource.consumptions.getD nameIndex []
          match assocGet consumptionMap norm.code with
          | none => acc2
          | some consumptionValue =>
            let parsedPair : String × Bool :=
              match consumptionValue with
              | .obj v _ isP => (v, isP)
              | .raw s =>
                ((parseConsumptionValue s).consumption,
                 (parseConsumptionValue s).isPrimary)
            if parsedPair.1 != "0" && parsedPair.1 != "-" then
              acc2 ++ [{ name := name, specification := "", unit := unit,
                         consumption := parsedPair.1,
                         isPrimary := parsedPair.2,
                         category := resource.category,
                         categoryCode :=
                           if parsedPair.2 then 5 else categoryCode }]
            else acc2) acc) []
    { norm with resources := some normResources })

/-- `TableStructure['leadingElements']`. -/
structure LeadingElements where
  workContent : Option String
  unit : Option String
  row : Int
deriving DecidableEq

/-- The first-match test of `parseLeadingElements` at one cell. -/
def leadingElemAt (g : ParsedExcelData) (r c : Int) : Option LeadingElements :=
  let value := getCellValue g r c
  if isWorkContent value then
    some { workContent := some value, unit := none, row := r }
  else if value != "" && strContains value "单位" && strContains value "：" then
    some { workContent := none, unit := some value, row := r }
  else none

/-- `parseLeadingElements`: scan the first 3 rows of the box, all columns,
returning at the first work-content or unit cell. -/
def parseLeadingElements (g : ParsedExcelData)
    (startRow endRow startCol endCol : Int) : Option LeadingElements :=
  (intRange startRow (min (startRow + 3) endRow)).findSome? (fun r =>
    (intRange startCol endCol).findSome? (fun c => leadingElemAt g r c))

/-- `TableStructure['normCodesRow']`. -/
structure NormCodesRow where
  labelCell : String
  normCodes : List NormInfo
  row : Int
deriving DecidableEq

/-- The per-cell test of `parseNormCodesRow`: a `子目编号`/`子目编码` label cell
with at least one norm code to its right in the same row. -/
def normCodesRowAt (g : ParsedExcelData) (endCol r c : Int) :
    Option NormCodesRow :=
  let value := getCellValue g r c
  let normalizedValue := stripSpaces value
  if strContains normalizedValue "子目编号" ||
      strContains normalizedValue "子目编码" then
    let normCodes := (intRange (c + 1) endCol).foldl (fun acc normCol =>
      let normValue := getCellValue g r normCol
      if isNormCode normValue then
        acc ++ [({ code := normValue, row := r, col := normCol } : NormInfo)]
      else acc) []
    if normCodes.length > 0 then
      some { labelCell := value, normCodes := normCodes, row := r }
    else none
  else none

/-- `parseNormCodesRow`: first two columns of the box, every row, first hit
wins (a hit requires a nonempty code list). -/
def parseNormCodesRow (g : ParsedExcelData)
    (startRow endRow startCol endCol : Int) : Option NormCodesRow :=
  (intRange startRow endRow).findSome? (fun r =>
    (intRange startCol (min (startCol + 2) endCol)).findSome? (fun c =>
      normCodesRowAt g endCol r c))

/-- One entry of `TableStructure['normNamesRows'].normNames`. -/
structure NormName where
  baseName : String
  spec : Option String
  unit : Option String
  fullName : String
  normCode : String
  col : Int
deriving DecidableEq

/-- `TableStructure['normNamesRows']`. -/
structure NormNamesRows where
  labelCell : String
  normNames : List NormName
  startRow : Int
  endRow : Int
deriving DecidableEq

/-- The norm-name record built for one norm-code column: base name from the
label row, specification from the row below, the hardcoded default unit
`"台"`, and the full name `baseName [+ " " + spec] + "&" + unit`. -/
def mkNormName (g : ParsedExcelData) (labelRow : Int) (normInfo : NormInfo) :
    NormName :=
  let col := normInfo.col
  let baseName := getCellValue g labelRow col
  let spec := getCellValue g (labelRow + 1) col
  let keepSpec := spec != "" && spec != baseName
  let fullName :=
    baseName ++ (if keepSpec then " " ++ spec else "") ++ "&" ++ "台"
  { baseName := baseName, spec := if keepSpec then some spec else none,
    unit := some "台", fullName := fullName, normCode := normInfo.code,
    col := col }

/-- `parseNormNamesRows`: locate the `子目名称` label row, then build each
norm-code column's name record. -/
def parseNormNamesRows (g : ParsedExcelData)
    (startRow endRow startCol endCol : Int)
    (normCodesInfo : Option (List NormInfo)) : Option NormNamesRows :=
  let label : Option (Int × String) :=
    (intRange startRow endRow).findSome? (fun r =>
      (intRange startCol (min (startCol + 2) endCol)).findSome? (fun c =>
        let value := getCellValue g r c
        if strContains (stripSpaces value) "子目名称" then some (r, value)
        else none))
  match label, normCodesInfo with
  | some (labelRow, labelCell), some normCodesList =>
    some { labelCell := labelCell,
           normNames := normCodesList.map (mkNormName g labelRow),
           startRow := labelRow, endRow := labelRow + 2 }
  | _, _ => none

/-- `TableStructure['resourcesSection']`. -/
structure ResourcesSection where
  labelCell : String
  unitLabelCell : Option String
  consumptionLabelCell : Option String
  resources : List ResourceInfo
  startRow : Int
  endRow : Int
deriving DecidableEq

/-- The `单位`/`消耗量` label sweep next to the resources label cell (each
assignment keeps the last matching cell). -/
def scanNearLabels (g : ParsedExcelData) (r : Int) (cols : List Int) :
    String × String :=
  cols.foldl (fun st nearCol =>
    let nearValue := getCellValue g r nearCol
    let nv := stripSpaces nearValue
    (if strContains nv "单位" then nearValue else st.1,
     if strContains nv "消耗量" then nearValue else st.2)) ("", "")

/-- One category block of the resources loop: names/units/consumptions of a
`人工`/`材料`/`机械` row (`none` when the names cell is empty). -/
def parseResourceRowBlock (g : ParsedExcelData) (_startCol : Int)
    (normCodes : List NormInfo) (row : Int) (category : String)
    (namesCell unitsCell : String) : Option ResourceInfo :=
  if namesCell != "" then
    let names := parseMultipleValues namesCell
    let units := parseMultipleValues unitsCell
    let consumptionsArray := (List.range names.length).map (fun nameIndex =>
      normCodes.foldl (fun cmap normInfo =>
        let consumptionCell := getCellValue g row normInfo.col
        let consumptionValues := parseMultipleValues consumptionCell
        match consumptionValues.get? nameIndex with
        | some v =>
          if v != "" && v != "0" && v != "-" then
            let parsed := parseConsumptionValue v
            assocSet cmap normInfo.code
              (ConsVal.obj parsed.consumption v parsed.isPrimary)
          else cmap
        | none => cmap) [])
    if names.length > 0 then
      some { category := category, names := names, units := units,
             consumptions := consumptionsArray, row := row }
    else none
  else none

/-- The row-by-row resource scan below the resources label row. -/
def resourcesRowsLoop (g : ParsedExcelData) (startCol : Int)
    (normCodes : List NormInfo) (rows : List Int) : List ResourceInfo :=
  rows.foldl (fun resources row =>
    let categoryCell := getCellValue g row startCol
    let namesCell := getCellValue g row (startCol + 1)
    let unitsCell := getCellValue g row (startCol + 9)
    if categoryCell = "" && namesCell = "" then resources
    else
      let nc := stripSpaces categoryCell
      if strContains nc "子目编号" || strContains nc "子目名称" ||
          strContains nc "人材机名称" then resources
      else if nc = "人工" || strContains categoryCell "人工" then
        match parseResourceRowBlock g startCol normCodes row "人工" namesCell
            unitsCell with
        | some ri => resources ++ [ri]
        | none => resources
      else if nc = "材料" || strContains categoryCell "材料" then
        match parseResourceRowBlock g startCol normCodes row "材料" namesCell
            unitsCell with
        | some ri => resources ++ [ri]
        | none => resources
      else if nc = "机械" || strContains categoryCell "机械" then
        match parseResourceRowBlock g startCol normCodes row "机械" namesCell
            unitsCell with
        | some ri => resources ++ [ri]
        | none => resources
      else resources) []

/-- `parseResourcesSection`: locate the `人材机名称` (or bare `名称`) label
cell, sweep for the nearby `单位`/`消耗量` labels, then parse every category
row below it; `none` when no label or no resource rows were found. -/
def parseResourcesSection (g : ParsedExcelData)
    (startRow endRow startCol endCol : Int) (normCodes : List NormInfo) :
    Option ResourcesSection :=
  let label : Option (Int × String × Int) :=
    (intRange startRow endRow).findSome? (fun r =>
      (intRange startCol (min (startCol + 3) endCol)).findSome? (fun c =>
        let value := getCellValue g r c
        let normalizedValue := stripSpaces value
        if strContains normalizedValue "人材机名称" || normalizedValue = "名称"
        then some (r, value, c) else none))
  match label with
  | none => none
  | some (resourcesStartRow, labelCell, labelCol) =>
    let near := scanNearLabels g resourcesStartRow
      (intRange (labelCol + 1) (min (labelCol + 15) endCol))
    let resources := resourcesRowsLoop g startCol normCodes
      (intRange (resourcesStartRow + 1) endRow)
    if resources.length > 0 then
      some { labelCell := labelCell,
             unitLabelCell := if near.1 = "" then none else some near.1,
             consumptionLabelCell := if near.2 = "" then none else some near.2,
             resources := resources, startRow := resourcesStartRow,
             endRow := endRow }
    else none

/-- `TableStructure['trailingElements']`. -/
structure TrailingElements where
  notes : List String
  rows : List Int
deriving DecidableEq

/-- `parseTrailingElements`: collect every note cell of the box. -/
def parseTrailingElements (g : ParsedExcelData)
    (startRow endRow startCol endCol : Int) : Option TrailingElements :=
  let collected := (intRange startRow endRow).foldl (fun acc r =>
    (intRange startCol endCol).foldl (fun acc2 c =>
      let value := getCellValue g r c
      if isNote value then (acc2.1 ++ [value], acc2.2 ++ [r]) else acc2) acc)
    (([], []) : List String × List Int)
  if collected.1.length > 0 then
    some { notes := collected.1, rows := collected.2 }
  else none

/-- `areInSameTable`: within an 8×8 proximity bound, same-row cells are
always in the same table; cells on different rows are when some cell of the
rectangle spanned by the two positions carries border information. -/
def areInSameTable (g : ParsedExcelData) (q1 q2 : Int × Int) : Bool :=
  let minRow := min q1.1 q2.1
  let maxRow := max q1.1 q2.1
  let minCol := min q1.2 q2.2
  let maxCol := max q1.2 q2.2
  if maxRow - minRow > 8 || maxCol - minCol > 8 then false
  else if q1.1 == q2.1 then true
  else
    (intRange minRow maxRow).any (fun r =>
      (intRange minCol maxCol).any (fun c =>
        match getCell g r c with
        | some cell => cell.hasBorderInfo
        | none => false))

/-- A norm-code cell collected by `detectTableAreas`. -/
structure NormCell where
  row : Int
  col : Int
  code : String
deriving DecidableEq

/-- One pass of the BFS inner `for` loop: try to enqueue each remaining
norm-code cell next to `current` (the visited set is updated as the loop
runs, exactly as in the source). -/
def bfsStep (g : ParsedExcelData) (normCodeCells : List NormCell)
    (current : NormCell) (st : List (Int × Int) × List NormCell) :
    List (Int × Int) × List NormCell :=
  normCodeCells.foldl (fun st2 otherNorm =>
    let otherKey := (otherNorm.row, otherNorm.col)
    if st2.1.contains otherKey then st2
    else
      let rowDistance := (otherNorm.row - current.row).natAbs
      let colDistance := (otherNorm.col - current.col).natAbs
      if rowDistance ≤ 8 && colDistance ≤ 8 then
        if areInSameTable g (current.row, current.col)
            (otherNorm.row, otherNorm.col) && rowDistance ≤ 5 then
          (st2.1 ++ [otherKey], st2.2 ++ [otherNorm])
        else st2
      else st2) st

/-- The BFS `while (queue.length > 0)` loop, run on explicit fuel: each
dequeue consumes one unit.  Every enqueue is guarded by the visited set, so
`normCodeCells.length + 1` units always suffice. -/
def bfsLoop (g : ParsedExcelData) (normCodeCells : List NormCell) :
    Nat → List (Int × Int) → List NormCell → List NormCell → List NormCell
  | 0, _, _, tableNorms => tableNorms
  | _ + 1, _, [], tableNorms => tableNorms
  | fuel + 1, visited, current :: queue, tableNorms =>
    let st := bfsStep g normCodeCells current (visited, queue)
    bfsLoop g normCodeCells fuel st.1 st.2 (tableNorms ++ [current])

/-- The connected group of norm-code cells reachable from `normCell`, in
dequeue order. -/
def bfsGroup (g : ParsedExcelData) (normCodeCells : List NormCell)
    (normCell : NormCell) : List NormCell :=
  bfsLoop g normCodeCells (normCodeCells.length + 1)
    [(normCell.row, normCell.col)] [normCell] []

/-- `Math.min(...)` over a nonempty list (0 never arises: callers pass the
rows/cols of a nonempty group). -/
def listMin (l : List Int) : Int :=
  match l with
  | [] => 0
  | x :: xs => xs.foldl min x

/-- `Math.max(...)` over a nonempty list. -/
def listMax (l : List Int) : Int :=
  match l with
  | [] => 0
  | x :: xs => xs.foldl max x

/-- `TableRange`. -/
structure TableRange where
  startRow : Int
  endRow : Int
  startCol : Int
  endCol : Int
deriving DecidableEq

/-- The decoded `TableStructure`. -/
structure TableStructure where
  leadingElements : Option LeadingElements
  normCodesRow : Option NormCodesRow
  normNamesRows : Option NormNamesRows
  resourcesSection : Option ResourcesSection
  trailingElements : Option TrailingElements
deriving DecidableEq

/-- A detected `TableArea` (the `structure` field is `tableStructure` here;
`structure` is a Lean keyword). -/
structure TableArea where
  id : String
  range : TableRange
  normCodes : List String
  unit : String
  workContent : Option String
  notes : List String
  isContinuation : Bool
  continuationOf : Option String := none
  tableStructure : TableStructure
  norms : Option (List NormInfo)
deriving DecidableEq

/-- The inner column sweep of the work-content/unit scan above a table: stop
at the first work-content cell, otherwise keep overwriting the running unit
with each matching `单位：` cell. -/
def scanWUCols (g : ParsedExcelData) (r : Int) :
    List Int → String → String × Option String
  | [], u => (u, none)
  | c :: cs, u =>
    let value := getCellValue g r c
    if isWorkContent value then (u, some value)
    else if value != "" && strContains value "单位" && strContains value "："
    then scanWUCols g r cs value
    else scanWUCols g r cs u

/-- The row sweep of the work-content/unit scan: a found work content breaks
the outer loop. -/
def scanWURows (g : ParsedExcelData) (cols : List Int) :
    List Int → String → String × String
  | [], u => ("", u)
  | r :: rs, u =>
    match scanWUCols g r cols u with
    | (u2, some w) => (w, u2)
    | (u2, none) => scanWURows g cols rs u2

/-- Build the `TableArea` emitted for one BFS group (the body of the
`if (tableNorms.length > 0)` block of `detectTableAreas`). -/
def buildTableArea (g : ParsedExcelData) (tableNorms : List NormCell) :
    TableArea :=
  let rows := tableNorms.map (fun n => n.row)
  let cols := tableNorms.map (fun n => n.col)
  let minRow := listMin rows
  let maxRow := listMax rows
  let minCol := listMin cols
  let maxCol := listMax cols
  let startRow := max 1 (minRow - 2)
  let endRow := min g.totalRows (maxRow + 10)
  let startCol := max 1 (minCol - 2)
  let endCol := min g.totalCols (maxCol + 5)
  let normCodes := sortStrings (tableNorms.map (fun n => n.code))
  let wu := scanWURows g (intRange startCol endCol)
    (intRange (max 1 (startRow - 3)) (startRow + 3 - 1)) ""
  let workContent := wu.1
  let unit := wu.2
  let notes := (intRange maxRow (min (endRow + 5) g.totalRows)).foldl
    (fun acc r => (intRange startCol endCol).foldl (fun acc2 c =>
      let value := getCellValue g r c
      if isNote value then acc2 ++ [value] else acc2) acc) []
  let tableStartRow := max 1 (minRow - 5)
  let tableEndRow := min g.totalRows (maxRow + 15)
  let leadingElements := parseLeadingElements g tableStartRow tableEndRow 1 endCol
  let normCodesRow := parseNormCodesRow g tableStartRow tableEndRow 1 endCol
  let normNamesRows := parseNormNamesRows g tableStartRow tableEndRow 1 endCol
    (normCodesRow.map (fun ncr => ncr.normCodes))
  let resourcesSection := match normCodesRow with
    | some ncr => parseResourcesSection g tableStartRow tableEndRow 1 endCol
        ncr.normCodes
    | none => none
  let trailingElements := parseTrailingElements g tableStartRow tableEndRow 1
    endCol
  let norms : Option (List NormInfo) :=
    match normCodesRow, resourcesSection with
    | some ncr, some rs =>
      some (buildNormResourceRelationships ncr.normCodes rs.resources)
    | _, _ => none
  { id := "table_" ++ toString minRow ++ "_" ++ toString minCol,
    range := { startRow := startRow, endRow := endRow, startCol := startCol,
               endCol := endCol },
    normCodes := normCodes, unit := unit,
    workContent := if workContent = "" then none else some workContent,
    notes := notes, isContinuation := false, continuationOf := none,
    tableStructure := { leadingElements := leadingElements,
                        normCodesRow := normCodesRow,
                        normNamesRows := normNamesRows,
                        resourcesSection := resourcesSection,
                        trailingElements := trailingElements },
    norms := norms }

/-- `processContinuationTables`: for each table, scan column 1 of the rows
from 2 above to 2 below the bounding-box start; a continuation marker sets
`isContinuation` and links to the most recent earlier table sharing a norm
code, when one exists. -/
def processContinuationTables (g : ParsedExcelData)
    (tableAreas : List TableArea) : List TableArea :=
  tableAreas.enum.map (fun p =>
    let i := p.1
    let table := p.2
    let markerFound := (intRange (table.range.startRow - 2)
      (table.range.startRow + 2)).any (fun r =>
        isContinuationTable (getCellValue g r 1))
    if markerFound then
      let prev := ((tableAreas.take i).reverse).find? (fun prevTable =>
        prevTable.normCodes.any (fun code => table.normCodes.contains code))
      { table with isContinuation := true,
                   continuationOf := prev.map (fun t => t.id) }
    else table)

/-- The norm-code cell collection at the top of `detectTableAreas`. -/
def collectNormCodeCells (g : ParsedExcelData) : List NormCell :=
  g.cells.foldl (fun acc cell =>
    if cell.value != "" && isNormCode cell.value then
      acc ++ [{ row := cell.row, col := cell.col, code := cell.value }]
    else acc) []

/-- One step of the grouping loop of `detectTableAreas`: skip already
processed cells, otherwise BFS the cell's group, mark it processed and emit
its `TableArea`. -/
def detectStep (g : ParsedExcelData) (normCodeCells : List NormCell)
    (st : List (Int × Int) × List TableArea) (normCell : NormCell) :
    List (Int × Int) × List TableArea :=
  let processed := st.1
  let tables := st.2
  if processed.contains (normCell.row, normCell.col) then st
  else
    let tableNorms := bfsGroup g normCodeCells normCell
    let processed2 := processed ++
      tableNorms.map (fun tn => (tn.row, tn.col))
    if tableNorms.length > 0 then
      (processed2, tables ++ [buildTableArea g tableNorms])
    else (processed2, tables)

/-- The grouping loop of `detectTableAreas`: BFS from each unprocessed
norm-code cell, emitting one `TableArea` per group (the first component is
the `processedNorms` set). -/
def detectRawTablesLoop (g : ParsedExcelData) (normCodeCells : List NormCell) :
    List (Int × Int) × List TableArea :=
  normCodeCells.foldl (detectStep g normCodeCells)
    (([], []) : List (Int × Int) × List TableArea)

/-- The grouping stage over the collected norm-code cells. -/
def detectRawTables (g : ParsedExcelData) :
    List (Int × Int) × List TableArea :=
  detectRawTablesLoop g (collectNormCodeCells g)

/-- `detectTableAreas`: collect every norm-code cell, group them by the BFS
over `areInSameTable`, emit one `TableArea` per group, then run the
continuation pass. -/
def detectTableAreas (g : ParsedExcelData) : List TableArea :=
  processContinuationTables g (detectRawTables g).2

/-- `SubSection` (the `children` field is never populated by this parser but
belongs to the data model). -/
structure SubSection where
  id : String
  name : String
  level : Int
  symbol : String
  tableAreas : List TableArea
  children : List SubSection

/-- `Section`. -/
structure Section where
  id : String
  name : String
  number : String
  description : Option (List String) := none
  subSections : List SubSection
  tableAreas : List TableArea

/-- `Chapter`. -/
structure Chapter where
  id : String
  name : String
  number : String
  description : Option (List String) := none
  sections : List Section
  tableAreas : List TableArea

/-- `collectDescriptionText`: non-heading SimSun cells of column 1. -/
def collectDescriptionText (g : ParsedExcelData) (startRow endRow : Int) :
    List String :=
  (intRange startRow endRow).foldl (fun descriptions row =>
    let cellValue := getCellValue g row 1
    let cell := getCell g row 1
    if cellValue != "" && (cell.bind (fun c => c.fontName)) == some "SimSun"
    then
      if !isChapterTitle cellValue cell && !isSectionTitle cellValue cell &&
          !isSubSectionTitle cellValue cell && !isNormCode cellValue then
        descriptions ++ [cellValue]
      else descriptions
    else descriptions) []

/-- The tag of a collected structural header. -/
inductive HeaderType where
  | chapter
  | section
  | subsection
deriving DecidableEq

/-- One collected structural header: its row, kind, number/symbol and name. -/
structure StructuralHeader where
  row : Int
  htype : HeaderType
  key : String
  name : String
deriving DecidableEq

/-- The headers contributed by one row of the first pass of
`buildHierarchicalStructure` (zero or one): column 1 is read, classified and
parsed; the classifier chain is `else if`, so a chapter-classified cell that
fails to parse falls through to nothing. -/
def headerAtRow (g : ParsedExcelData) (row : Int) : List StructuralHeader :=
  let cellValue := getCellValue g row 1
  if cellValue = "" then []
  else
    let cell := getCell g row 1
    if isChapterTitle cellValue cell then
      match parseChapterTitle cellValue with
      | some info =>
        [{ row := row, htype := HeaderType.chapter, key := info.1,
           name := info.2 }]
      | none => []
    else if isSectionTitle cellValue cell then
      match parseSectionTitle cellValue with
      | some info =>
        [{ row := row, htype := HeaderType.section, key := info.1,
           name := info.2 }]
      | none => []
    else if isSubSectionTitle cellValue cell then
      match parseSubSectionTitle cellValue with
      | some info =>
        [{ row := row, htype := HeaderType.subsection, key := info.1,
           name := info.2 }]
      | none => []
    else []

/-- The first pass of `buildHierarchicalStructure`: scan every row of the
grid in order, appending the header found (if any) at column 1 of each. -/
def collectStructuralHeaders (g : ParsedExcelData) : List StructuralHeader :=
  (intRange 1 g.totalRows).foldl (fun headers row =>
    headers ++ headerAtRow g row) []

/-- Replace the element at an index (used for the in-place pushes of the
source, which mutate a node inside the chapters tree). -/
def listModify {α : Type} : List α → Nat → (α → α) → List α
  | [], _, _ => []
  | x :: xs, 0, f => f x :: xs
  | x :: xs, n + 1, f => x :: listModify xs n f

/-- A placeholder chapter for total index reads (never observed: indices come
from the builder and are in bounds). -/
def dummyChapter : Chapter :=
  { id := "", name := "", number := "", sections := [], tableAreas := [] }

/-- A placeholder section for total index reads. -/
def dummySection : Section :=
  { id := "", name := "", number := "", subSections := [], tableAreas := [] }

/-- The state of the second pass: the chapters built so far and the indices
of the current chapter and current section. -/
structure BuildState where
  chapters : List Chapter
  curCh : Option Nat := none
  curSec : Option Nat := none

/-- The second pass of `buildHierarchicalStructure`: walk the ordered header
list once, creating chapters, attaching sections to the current chapter and
subsections to the current section, with the description ranges delimited by
the next header. -/
def buildFromHeaders (g : ParsedExcelData) (headers : List StructuralHeader) :
    List Chapter :=
  (headers.enum.foldl (fun (st : BuildState) p =>
    let header := p.2
    let nextHeader := headers.get? (p.1 + 1)
    let descriptionStart := header.row + 1
    let descriptionEnd :=
      match nextHeader with
      | some nh => nh.row - 1
      | none => g.totalRows
    match header.htype with
    | HeaderType.chapter =>
      let description := collectDescriptionText g descriptionStart
        (min descriptionEnd (descriptionStart + 20))
      let newChapter : Chapter :=
        { id := "chapter_" ++ header.key, name := header.name,
          number := header.key,
          description := if description.length > 0 then some description
            else none,
          sections := [], tableAreas := [] }
      { chapters := st.chapters ++ [newChapter],
        curCh := some st.chapters.length, curSec := none }
    | HeaderType.section =>
      match st.curCh with
      | none => st
      | some ci =>
        let currentChapter := st.chapters.getD ci dummyChapter
        let description := collectDescriptionText g descriptionStart
          (min descriptionEnd (descriptionStart + 15))
        let newSection : Section :=
          { id := "section_" ++ currentChapter.id ++ "_" ++ header.key,
            name := header.name, number := header.key,
            description := if description.length > 0 then some description
              else none,
            subSections := [], tableAreas := [] }
        { chapters := listModify st.chapters ci (fun ch =>
            { ch with sections := ch.sections ++ [newSection] }),
          curCh := st.curCh, curSec := some currentChapter.sections.length }
    | HeaderType.subsection =>
      match st.curCh, st.curSec with
      | some ci, some si =>
        let currentSection :=
          (st.chapters.getD ci dummyChapter).sections.getD si dummySection
        let newSubSection : SubSection :=
          { id := "subsection_" ++ currentSection.id ++ "_" ++ header.key,
            name := header.name, level := 1, symbol := header.key,
            tableAreas := [], children := [] }
        { st with chapters := listModify st.chapters ci (fun ch =>
            { ch with sections := listModify ch.sections si (fun sec =>
                { sec with
                  subSections := sec.subSections ++ [newSubSection] }) }) }
      | _, _ => st)
    ({ chapters := [] } : BuildState)).chapters

/-- First tree node whose subsection name matches the heading text
(`cellValue.includes(name) || name.includes(cellValue.substring(0, 10))`;
the text here is in the Basic Multilingual Plane, where `substring(0, 10)`
is the first 10 characters). -/
def findMatchingSubSection (chapters : List Chapter) (cellValue : String) :
    Option (Nat × Nat × Nat) :=
  chapters.enum.findSome? (fun pc =>
    pc.2.sections.enum.findSome? (fun ps =>
      ps.2.subSections.enum.findSome? (fun pss =>
        if strContains cellValue pss.2.name ||
            strContains pss.2.name (strTake cellValue 10) then
          some (pc.1, ps.1, pss.1)
        else none)))

/-- First tree node whose section name matches the heading text. -/
def findMatchingSection (chapters : List Chapter) (cellValue : String) :
    Option (Nat × Nat) :=
  chapters.enum.findSome? (fun pc =>
    pc.2.sections.enum.findSome? (fun ps =>
      if strContains cellValue ps.2.name ||
          strContains ps.2.name (strTake cellValue 10) then
        some (pc.1, ps.1)
      else none))

/-- First chapter whose name matches the heading text. -/
def findMatchingChapter (chapters : List Chapter) (cellValue : String) :
    Option Nat :=
  chapters.enum.findSome? (fun pc =>
    if strContains cellValue pc.2.name ||
        strContains pc.2.name (strTake cellValue 10) then
      some pc.1
    else none)

/-- The running state of the backward walk above a table. -/
structure WalkState where
  lastChapterRow : Int := -1
  lastSectionRow : Int := -1
  lastSubSectionRow : Int := -1
  bestChapter : Option Nat := none
  bestSection : Option (Nat × Nat) := none
  bestSubSection : Option (Nat × Nat × Nat) := none

/-- The backward walk from the row above the table down to row 1, recording
the most recent subsection/section/chapter headings and resolving each
against the tree; stops early once something was found and the walk is more
than 50 rows above the table. -/
def assignWalkGo (g : ParsedExcelData) (chapters : List Chapter)
    (tableRow : Int) : List Int → WalkState → WalkState
  | [], st => st
  | row :: rest, st =>
    let cellValue := getCellValue g row 1
    let cell := getCell g row 1
    if cellValue = "" then assignWalkGo g chapters tableRow rest st
    else
      let st1 :=
        if st.lastSubSectionRow == -1 && isSubSectionTitle cellValue cell then
          match findMatchingSubSection chapters cellValue with
          | some (ci, si, ssi) =>
            { st with lastSubSectionRow := row,
                      bestSubSection := some (ci, si, ssi),
                      bestSection := some (ci, si), bestChapter := some ci }
          | none => { st with lastSubSectionRow := row }
        else st
      let st2 :=
        if st1.lastSectionRow == -1 && isSectionTitle cellValue cell then
          if st1.bestSubSection.isNone then
            match findMatchingSection chapters cellValue with
            | some (ci, si) =>
              { st1 with lastSectionRow := row,
                         bestSection := some (ci, si),
                         bestChapter := some ci }
            | none => { st1 with lastSectionRow := row }
          else { st1 with lastSectionRow := row }
        else st1
      let st3 :=
        if st2.lastChapterRow == -1 && isChapterTitle cellValue cell then
          if st2.bestSection.isNone && st2.bestSubSection.isNone then
            match findMatchingChapter chapters cellValue with
            | some ci =>
              { st2 with lastChapterRow := row, bestChapter := some ci }
            | none => { st2 with lastChapterRow := row }
          else { st2 with lastChapterRow := row }
        else st2
      if (st3.bestSubSection.isSome || st3.bestSection.isSome ||
          st3.bestChapter.isSome) && row < tableRow - 50 then st3
      else assignWalkGo g chapters tableRow rest st3

/-- A fresh default/fallback subsection holding the given tables. -/
def mkDefaultSubSection (parentId suffix : String) (tables : List TableArea) :
    SubSection :=
  { id := "subsection_" ++ parentId ++ "_" ++ suffix, name := "Tables",
    level := 1, symbol := "", tableAreas := tables, children := [] }

/-- Attach one table to the tree given the walk result: the most specific of
subsection, section, chapter; with no match, fall back to a subsection in the
first chapter (creating `Fallback Section` / `Fallback Tables` nodes as
needed), or drop the table when there are no chapters at all. -/
def assignTable (chapters : List Chapter) (st : WalkState)
    (table : TableArea) : List Chapter :=
  match st.bestSubSection with
  | some (ci, si, ssi) =>
    listModify chapters ci (fun ch =>
      { ch with sections := listModify ch.sections si (fun sec =>
          { sec with subSections := listModify sec.subSections ssi (fun sub =>
              { sub with tableAreas := sub.tableAreas ++ [table] }) }) })
  | none =>
    match st.bestSection with
    | some (ci, si) =>
      listModify chapters ci (fun ch =>
        { ch with sections := listModify ch.sections si (fun sec =>
            if sec.subSections.isEmpty then
              { sec with
                subSections := [mkDefaultSubSection sec.id "default" [table]] }
            else
              { sec with subSections := (listModify sec.subSections
                  (sec.subSections.length - 1) (fun sub =>
                    { sub with tableAreas := sub.tableAreas ++ [table] })) }) })
    | none =>
      match st.bestChapter with
      | some ci =>
        listModify chapters ci (fun ch =>
          if ch.sections.isEmpty then
            let defaultSection : Section :=
              { id := "section_" ++ ch.id ++ "_default",
                name := "Default Section", number := "", subSections := [],
                tableAreas := [] }
            { ch with sections := [{ defaultSection with
                subSections :=
                  [mkDefaultSubSection defaultSection.id "default" [table]] }] }
          else
            { ch with sections := (listModify ch.sections
                (ch.sections.length - 1) (fun lastSection =>
                  if lastSection.subSections.isEmpty then
                    { lastSection with subSections :=
                        [mkDefaultSubSection lastSection.id "default" [table]] }
                  else
                    { lastSection with subSections :=
                        (listModify lastSection.subSections
                          (lastSection.subSections.length - 1) (fun sub =>
                            { sub with
                              tableAreas := sub.tableAreas ++ [table] })) })) })
      | none =>
        if chapters.isEmpty then chapters
        else
          listModify chapters 0 (fun firstChapter =>
            let ch1 :=
              if firstChapter.sections.isEmpty then
                { firstChapter with sections :=
                    [({ id := "section_" ++ firstChapter.id ++ "_fallback",
                        name := "Fallback Section", number := "",
                        subSections := [], tableAreas := [] } : Section)] }
              else firstChapter
            { ch1 with sections := (listModify ch1.sections
                (ch1.sections.length - 1) (fun lastSection =>
                  let sec1 :=
                    if lastSection.subSections.isEmpty then
                      { lastSection with subSections :=
                          [({ id := "subsection_" ++ lastSection.id ++
                                "_fallback",
                              name := "Fallback Tables", level := 1,
                              symbol := "", tableAreas := [],
                              children := [] } : SubSection)] }
                    else lastSection
                  { sec1 with subSections := (listModify sec1.subSections
                      (sec1.subSections.length - 1) (fun sub =>
                        { sub with
                          tableAreas := sub.tableAreas ++ [table] })) })) })

/-- `buildHierarchicalStructure`: collect the headers, build the chapter
tree, then assign every table area by the backward walk. -/
def buildHierarchicalStructure (g : ParsedExcelData)
    (tableAreas : List TableArea) : List Chapter :=
  let headers := collectStructuralHeaders g
  let chapters0 := buildFromHeaders g headers
  tableAreas.foldl (fun chapters table =>
    let tableRow := table.range.startRow
    let st := assignWalkGo g chapters tableRow
      ((intRange 1 (tableRow - 1)).reverse) {}
    assignTable chapters st table) chapters0

/-- The metadata of the structured document (`{ ...this.data.metadata,
structuredAt: new Date().toISOString() }`; the ambient timestamp is made an
explicit parameter `now` of the parse). -/
structure DocMetadata where
  totalRows : Int
  totalCols : Int
  structuredAt : String
deriving DecidableEq

/-- `StructuredDocument`. -/
structure StructuredDocument where
  metadata : DocMetadata
  chapters : List Chapter

/-- `parseStructure`: detect the tables, build the hierarchy, and stamp the
metadata with the current wall-clock time `now`. -/
def parseStructure (g : ParsedExcelData) (now : String) :
    StructuredDocument :=
  let tableAreas := detectTableAreas g
  let chapters := buildHierarchicalStructure g tableAreas
  { metadata := { totalRows := g.totalRows, totalCols := g.totalCols,
                  structuredAt := now },
    chapters := chapters }

/-! ### Shared lemmas -/

/-- An invariant preserved by every step of a fold is preserved by the fold. -/
theorem foldl_state_invariant {α σ : Type} (P : σ → Prop) (f : σ → α → σ)
    (hf : ∀ s a, P s → P (f s a)) :
    ∀ (l : List α) (s : σ), P s → P (l.foldl f s) := by
  intro l
  induction l with
  | nil => intro s hs; exact hs
  | cons a l ih => intro s hs; exact ih (f s a) (hf s a hs)

/-- A fold that only appends is the initial list followed by the flat map. -/
theorem foldl_append_eq_bind {α β : Type} (f : α → List β) :
    ∀ (l : List α) (init : List β),
      l.foldl (fun acc a => acc ++ f a) init = init ++ l.flatMap f := by
  intro l
  induction l with
  | nil => intro init; simp
  | cons a l ih => intro init; simp [List.foldl_cons, ih, List.flatMap_cons]

theorem jsLtChars_asymm :
    ∀ as bs, jsLtChars as bs = true → jsLtChars bs as = false := by
  intro as
  induction as with
  | nil =>
    intro bs h
    cases bs with
    | nil => simp [jsLtChars] at h
    | cons b bs => simp [jsLtChars]
  | cons a as ih =>
    intro bs h
    cases bs with
    | nil => simp [jsLtChars] at h
    | cons b bs =>
      simp only [jsLtChars] at h ⊢
      by_cases h1 : a.toNat < b.toNat
      · have h2 : ¬ b.toNat < a.toNat := by omega
        simp [h1, h2]
      · by_cases h2 : b.toNat < a.toNat
        · simp [h1, h2] at h
        · simp [h1, h2] at h ⊢
          exact ih bs h

theorem jsLtChars_cases :
    ∀ cs as bs, jsLtChars cs as = true →
      jsLtChars cs bs = true ∨ jsLtChars bs as = true := by
  intro cs
  induction cs with
  | nil =>
    intro as bs h
    cases as with
    | nil => simp [jsLtChars] at h
    | cons a as =>
      cases bs with
      | nil => right; simp [jsLtChars]
      | cons b bs => left; simp [jsLtChars]
  | cons c cs ih =>
    intro as bs h
    cases as with
    | nil => simp [jsLtChars] at h
    | cons a as =>
      cases bs with
      | nil => right; simp [jsLtChars]
      | cons b bs =>
        simp only [jsLtChars] at h ⊢
        split_ifs at h with hca hac
        · -- c < a as naturals
          by_cases hcb : c.toNat < b.toNat
          · left; simp [hcb]
          · right
            have hba : b.toNat < a.toNat := by omega
            simp [hba]
        · -- equal heads, recurse
          by_cases hcb : c.toNat < b.toNat
          · left; simp [hcb]
          · by_cases hba : b.toNat < a.toNat
            · right; simp [hba]
            · have hbc : ¬ b.toNat < c.toNat := by omega
              have hab : ¬ a.toNat < b.toNat := by omega
              rcases ih as bs h with h1 | h1
              · left; simp [hcb, hbc, h1]
              · right; simp [hba, hab, h1]

instance : IsTrans String jsLeRel := by
  constructor
  intro a b c hab hbc
  have hab2 : jsLtChars b.toList a.toList = false := by
    simpa [jsLeRel, jsLeString] using hab
  have hbc2 : jsLtChars c.toList b.toList = false := by
    simpa [jsLeRel, jsLeString] using hbc
  show jsLeString a c = true
  simp only [jsLeString, Bool.not_eq_true']
  cases hx : jsLtChars c.toList a.toList
  · rfl
  · exfalso
    rcases jsLtChars_cases c.toList a.toList b.toList hx with h1 | h1
    · rw [hbc2] at h1; exact Bool.false_ne_true h1
    · rw [hab2] at h1; exact Bool.false_ne_true h1

instance : IsTotal String jsLeRel := by
  constructor
  intro a b
  cases hx : jsLtChars b.toList a.toList
  · left
    show jsLeString a b = true
    simp only [jsLeString, Bool.not_eq_true']
    exact hx
  · right
    show jsLeString b a = true
    simp only [jsLeString, Bool.not_eq_true']
    exact jsLtChars_asymm b.toList a.toList hx

/-- Insertion sort with the JavaScript string order sorts. -/
theorem sortStrings_sorted (l : List String) :
    List.Sorted jsLeRel (sortStrings l) :=
  List.sorted_insertionSort jsLeRel l

theorem headerAtRow_row (g : ParsedExcelData) (r : Int)
    (h : StructuralHeader) (hm : h ∈ headerAtRow g r) : h.row = r := by
  dsimp only [headerAtRow] at hm
  repeat' split at hm
  all_goals simp_all

theorem headerAtRow_length (g : ParsedExcelData) (r : Int) :
    (headerAtRow g r).length ≤ 1 := by
  dsimp only [headerAtRow]
  repeat' split
  all_goals simp

theorem pairwise_row_lt_flatMap {α : Type} (rowOf : α → Int)
    (f : Int → List α) (hrow : ∀ r x, x ∈ f r → rowOf x = r)
    (hlen : ∀ r, (f r).length ≤ 1) :
    ∀ l : List Int, l.Pairwise (fun a b => a < b) →
      (l.flatMap f).Pairwise (fun x y => rowOf x < rowOf y) := by
  intro l
  induction l with
  | nil => intro _; simp
  | cons a l ih =>
    intro hp
    rw [List.flatMap_cons]
    apply List.pairwise_append.mpr
    refine ⟨?_, ih hp.of_cons, ?_⟩
    · rcases hfa : f a with _ | ⟨x, xs⟩
      · simp
      · have hl := hlen a
        rw [hfa] at hl
        simp only [List.length_cons] at hl
        have hxs : xs = [] := by
          cases xs with
          | nil => rfl
          | cons y ys => simp at hl
        subst hxs
        simp
    · intro x hx y hy
      have hxa : rowOf x = a := hrow a x hx
      obtain ⟨b, hb, hyb⟩ := List.mem_flatMap.mp hy
      have hyb2 : rowOf y = b := hrow b y hyb
      rw [hxa, hyb2]
      exact (List.pairwise_cons.mp hp).1 b hb

theorem intRange_pairwise (a b : Int) :
    (intRange a b).Pairwise (fun x y => x < y) := by
  unfold intRange
  rw [List.pairwise_map]
  refine (List.pairwise_lt_range _).imp ?_
  intro i j hij
  simp only [Int.ofNat_eq_coe]
  omega

theorem collectStructuralHeaders_eq (g : ParsedExcelData) :
    collectStructuralHeaders g =
      (intRange 1 g.totalRows).flatMap (headerAtRow g) := by
  unfold collectStructuralHeaders
  simpa using foldl_append_eq_bind (headerAtRow g) (intRange 1 g.totalRows) []

/-- `buildTableArea` emits the group codes sorted, not yet marked as a
continuation. -/
theorem buildTableArea_fields (g : ParsedExcelData) (tn : List NormCell) :
    (buildTableArea g tn).normCodes =
      sortStrings (tn.map (fun n => n.code)) ∧
    (buildTableArea g tn).isContinuation = false ∧
    (buildTableArea g tn).continuationOf = none :=
  ⟨rfl, rfl, rfl⟩

/-- Specialisation of the fold invariant to the state of the grouping loop,
stated so it applies without higher-order unification. -/
theorem foldl_tables_invariant (Q : TableArea → Prop)
    (f : List (Int × Int) × List TableArea → NormCell →
      List (Int × Int) × List TableArea)
    (hf : ∀ st a t, (∀ t0 ∈ st.2, Q t0) → t ∈ (f st a).2 → Q t) :
    ∀ (l : List NormCell) (st : List (Int × Int) × List TableArea),
      (∀ t ∈ st.2, Q t) → ∀ t ∈ (l.foldl f st).2, Q t := by
  intro l
  induction l with
  | nil => intro st hst; exact hst
  | cons a l ih =>
    intro st hst
    exact ih (f st a) (fun t ht => hf st a t hst ht)

/-- `detectStep` preserves the base table invariants. -/
theorem detectStep_base (g : ParsedExcelData) (cells : List NormCell)
    (st : List (Int × Int) × List TableArea) (a : NormCell) (t : TableArea)
    (hst : ∀ t0 ∈ st.2, t0.isContinuation = false ∧ t0.continuationOf = none ∧
      List.Sorted jsLeRel t0.normCodes)
    (ht : t ∈ (detectStep g cells st a).2) :
    t.isContinuation = false ∧ t.continuationOf = none ∧
      List.Sorted jsLeRel t.normCodes := by
  dsimp only [detectStep] at ht
  split at ht
  · exact hst t ht
  · split at ht
    · rcases List.mem_append.mp ht with h1 | h1
      · exact hst t h1
      · have ht2 := List.mem_singleton.mp h1
        subst ht2
        exact ⟨rfl, rfl, sortStrings_sorted _⟩
    · exact hst t ht

/-- Every table produced by the grouping loop has sorted codes and is not yet
marked as a continuation. -/
theorem detectRawTables_base (g : ParsedExcelData) :
    ∀ t ∈ (detectRawTables g).2, t.isContinuation = false ∧
      t.continuationOf = none ∧ List.Sorted jsLeRel t.normCodes := by
  unfold detectRawTables detectRawTablesLoop
  exact foldl_tables_invariant _ _ (detectStep_base g (collectNormCodeCells g))
    (collectNormCodeCells g) ([], []) (by intro t ht; simp at ht)

/-- Every output of the continuation pass is an input table, possibly with
`isContinuation` set and a continuation target recorded. -/
theorem processContinuationTables_mem (g : ParsedExcelData)
    (tables : List TableArea) (t : TableArea)
    (ht : t ∈ processContinuationTables g tables) :
    ∃ t0 ∈ tables, t = t0 ∨ ∃ prev : Option String,
      t = { t0 with isContinuation := true, continuationOf := prev } := by
  unfold processContinuationTables at ht
  obtain ⟨p, hp, hpt⟩ := List.mem_map.mp ht
  have hmem : p.2 ∈ tables := by
    have := List.mem_enum_iff_getElem?.mp hp
    exact List.getElem?_mem this
  refine ⟨p.2, hmem, ?_⟩
  dsimp only at hpt
  split at hpt
  · right
    exact ⟨_, hpt.symm⟩
  · left
    exact hpt.symm

/-! ### Concrete grids and fixtures used by the claim theorems -/

/-- Shorthand cell constructor for concrete grids. -/
def mkCell (r c : Int) (v : String) (f : Option String) (b : Bool) :
    CellData :=
  { row := r, col := c, value := v, fontName := f, hasBorderInfo := b }

/-- Two norm codes on different rows (5 and 6) of one bordered column. -/
def g1cex : ParsedExcelData :=
  { cells := [mkCell 5 3 "1B-1" none true, mkCell 6 3 "1B-2" none true],
    totalRows := 8, totalCols := 5 }

/-- Two norm codes on one row: `2B-1` in column 2 (left), `10B-2` in
column 5 (right). -/
def g10c : ParsedExcelData :=
  { cells := [mkCell 3 2 "2B-1" none false, mkCell 3 5 "10B-2" none false],
    totalRows := 6, totalCols := 6 }

/-- One table (norm row 5, bounding-box start 3) with a `续表` marker at
row 5 — two rows *below* the box start — and no earlier table. -/
def g8cex : ParsedExcelData :=
  { cells := [mkCell 5 3 "1B-1" none false, mkCell 5 1 "续表" none false],
    totalRows := 10, totalCols := 5 }

/-- Scenario C: two distant tables sharing norm code `1B-1`, with a `续表`
marker one row above the second table's bounding-box start (row 28). -/
def g8scn : ParsedExcelData :=
  { cells := [mkCell 5 3 "1B-1" none false, mkCell 30 3 "1B-1" none false,
              mkCell 27 1 "续表" none false],
    totalRows := 40, totalCols := 5 }

/-- A `子目名称` label row whose first norm-code column has the cell
`单位：100m` directly above the norm code at (3,2). -/
def g4cex : ParsedExcelData :=
  { cells := [mkCell 1 1 "子目名称" none false,
              mkCell 1 2 "减振台座" none false,
              mkCell 2 2 "单位：100m" none false,
              mkCell 3 2 "1B-1" none false],
    totalRows := 8, totalCols := 5 }

/-- The norm-code list fed to `parseNormNamesRows` for `g4cex`. -/
def codes4 : List NormInfo := [{ code := "1B-1", row := 3, col := 2 }]

/-- The norm-name record parsed from `g4cex`. -/
def nn4 : NormName :=
  { baseName := "减振台座", spec := some "单位：100m", unit := some "台",
    fullName := "减振台座 单位：100m&台", normCode := "1B-1", col := 2 }

/-- The record `parseNormNamesRows` produces on `g4cex`. -/
def res4 : NormNamesRows :=
  { labelCell := "子目名称", normNames := [nn4], startRow := 1, endRow := 3 }

/-- An empty decoded structure for hand-made tables. -/
def emptyStructure : TableStructure :=
  { leadingElements := none, normCodesRow := none, normNamesRows := none,
    resourcesSection := none, trailingElements := none }

/-- A hand-made table anchored at row 5 holding norm code `1B-1`. -/
def t5 : TableArea :=
  { id := "table_5_3",
    range := { startRow := 5, endRow := 8, startCol := 1, endCol := 5 },
    normCodes := ["1B-1"], unit := "", workContent := none, notes := [],
    isContinuation := false, continuationOf := none,
    tableStructure := emptyStructure, norms := none }

/-- A placeholder table for total index reads in witnesses. -/
def dummyTable : TableArea :=
  { id := "", range := { startRow := 0, endRow := 0, startCol := 0,
                         endCol := 0 },
    normCodes := [], unit := "", workContent := none, notes := [],
    isContinuation := false, continuationOf := none,
    tableStructure := emptyStructure, norms := none }

/-- A grid whose only heading — a SimHei chapter title — sits at row 10,
*below* the hand-made table `t5` anchored at row 5. -/
def g5cex : ParsedExcelData :=
  { cells := [mkCell 10 1 "第一章 机械设备安装工程" (some "SimHei") false],
    totalRows := 12, totalCols := 5 }

/-- A grid with no headings (and no cells) at all. -/
def g5empty : ParsedExcelData :=
  { cells := [], totalRows := 5, totalCols := 5 }

/-- The empty grid used for the determinism counterexample. -/
def g6empty : ParsedExcelData :=
  { cells := [], totalRows := 0, totalCols := 0 }

/-- A SimHei chapter heading placed in column 2 (not column 1). -/
def g9cex : ParsedExcelData :=
  { cells := [mkCell 1 2 "第一章 机械设备安装工程" (some "SimHei") false],
    totalRows := 3, totalCols := 5 }

/-- The cell-free grid with the same row count as `g9cex`. -/
def g9b : ParsedExcelData :=
  { cells := [], totalRows := 3, totalCols := 5 }

/-- The norm used by the Scenario A/B fixtures. -/
def normB : NormInfo := { code := "1B-1", row := 73, col := 13 }

/-- Scenario B resource row: a primary token `(2.0)` tabulated under a
`材料` (material) row, entered through `parseConsumptionValue` exactly as
`parseResourcesSection` stores it. -/
def resB : ResourceInfo :=
  { category := "材料", names := ["钢架焊接减振台座"], units := ["台"],
    consumptions := [[("1B-1",
      ConsVal.obj (parseConsumptionValue "(2.0)").consumption "(2.0)"
        (parseConsumptionValue "(2.0)").isPrimary)]],
    row := 75 }

/-- Scenario A resource row: the labor token `0.122`. -/
def resA : ResourceInfo :=
  { category := "人工", names := ["综合用工二类"], units := ["工日"],
    consumptions := [[("1B-1",
      ConsVal.obj (parseConsumptionValue "0.122").consumption "0.122"
        (parseConsumptionValue "0.122").isPrimary)]],
    row := 75 }

/-- The `ResourceConsumption` emitted for Scenario B. -/
def rcB : ResourceConsumption :=
  { name := "钢架焊接减振台座", specification := "", unit := "台",
    consumption := "2.0", isPrimary := true, category := "材料",
    categoryCode := 5 }

/-! ### Claim theorems -/

/-- C1 counterexample: in `g1cex` the cells at (5,3) and (6,3) hold norm
codes on *different* rows, yet `detectTableAreas` groups both codes into a
single `TableArea` — refuting "no two norm-code cells lying on different
rows are ever grouped into one TableArea". -/
theorem C1_counterexample :
    getCellValue g1cex 5 3 = "1B-1" ∧ getCellValue g1cex 6 3 = "1B-2" ∧
    isNormCode "1B-1" = true ∧ isNormCode "1B-2" = true ∧ (5 : Int) ≠ 6 ∧
    (detectTableAreas g1cex).map (fun t => t.normCodes) =
      [["1B-1", "1B-2"]] := by
  refine ⟨by decide, by decide, by decide, by decide, by decide, by decide⟩

/-- C1 (amended): sharing a row (within the detector's 8-column proximity
bound) is sufficient for `areInSameTable`, but not necessary: norm codes on
different rows are also merged when a bordered cell connects them, as the
grouping on `g1cex` shows. -/
theorem C1_theorem :
    (∀ (g : ParsedExcelData) (q1 q2 : Int × Int), q1.1 = q2.1 →
        (q1.2 - q2.2).natAbs ≤ 8 → areInSameTable g q1 q2 = true) ∧
    areInSameTable g1cex (5, 3) (6, 3) = true ∧
    (detectTableAreas g1cex).map (fun t => t.normCodes) =
      [["1B-1", "1B-2"]] := by
  refine ⟨?_, by decide, by decide⟩
  intro g q1 q2 hrow hcol
  obtain ⟨r1, c1⟩ := q1
  obtain ⟨r2, c2⟩ := q2
  dsimp only at hrow hcol
  subst hrow
  unfold areInSameTable
  dsimp only
  split_ifs with hgt hbeq
  · exfalso
    simp only [Bool.or_eq_true, decide_eq_true_eq] at hgt
    rcases hgt with h | h
    · omega
    · omega
  · rfl
  · exfalso
    simp at hbeq

/-- C1 witness for the same-row sufficiency component. -/
theorem C1_witness : areInSameTable g1cex (3, 2) (3, 4) = true :=
  C1_theorem.1 g1cex (3, 2) (3, 4) rfl (by decide)

/-- C10: in every emitted `TableArea` the `normCodes` list is sorted in the
JavaScript default (code-unit lexicographic) string order; on `g10c` the
code `10B-2`, though in the rightmost column, is listed before `2B-1`. -/
theorem C10_theorem :
    (∀ (g : ParsedExcelData), ∀ t ∈ detectTableAreas g,
        List.Sorted jsLeRel t.normCodes) ∧
    getCellValue g10c 3 2 = "2B-1" ∧ getCellValue g10c 3 5 = "10B-2" ∧
    (detectTableAreas g10c).map (fun t => t.normCodes) =
      [["10B-2", "2B-1"]] ∧
    jsLeString "10B-2" "2B-1" = true := by
  refine ⟨?_, by decide, by decide, by decide, by decide⟩
  intro g t ht
  unfold detectTableAreas at ht
  obtain ⟨t0, ht0, hcase⟩ :=
    processContinuationTables_mem g (detectRawTables g).2 t ht
  have hbase := detectRawTables_base g t0 ht0
  rcases hcase with rfl | ⟨prev, rfl⟩
  · exact hbase.2.2
  · exact hbase.2.2

/-- C10 witness: the sortedness component applied to the table detected on
`g10c`. -/
theorem C10_witness :
    List.Sorted jsLeRel ((detectTableAreas g10c).headD dummyTable).normCodes := by
  have hmem : (detectTableAreas g10c).headD dummyTable ∈ detectTableAreas g10c := by
    rcases h : detectTableAreas g10c with _ | ⟨a, l⟩
    · exfalso
      have hlen : (detectTableAreas g10c).length = 1 := by decide
      rw [h] at hlen
      simp at hlen
    · simp
  exact C10_theorem.1 g10c ((detectTableAreas g10c).headD dummyTable) hmem

/-- Generic membership invariant for folds that build a list. -/
theorem foldl_mem_invariant {α β : Type} (Q : β → Prop)
    (f : List β → α → List β)
    (hf : ∀ acc a x, (∀ y ∈ acc, Q y) → x ∈ f acc a → Q x) :
    ∀ (l : List α) (acc : List β), (∀ y ∈ acc, Q y) →
      ∀ x ∈ l.foldl f acc, Q x := by
  intro l
  induction l with
  | nil => intro acc hacc; exact hacc
  | cons a l ih =>
    intro acc hacc
    exact ih (f acc a) (fun y hy => hf acc a y hacc hy)

/-- C2: the category map sends `人工` to 1, `材料` to 2, `机械` to 3 and
everything else to `none` (read back as 5); every emitted
`ResourceConsumption` carries category code 5 when primary and the
map-derived code of its own stated category otherwise; and the Scenario B
token `(2.0)` under a `材料` row comes out as value `"2.0"`,
`isPrimary = true`, category code 5. -/
theorem C2_theorem :
    (categoryCodeLookup "人工" = some 1 ∧ categoryCodeLookup "材料" = some 2 ∧
      categoryCodeLookup "机械" = some 3 ∧
      ∀ c : String, c ≠ "人工" → c ≠ "材料" → c ≠ "机械" →
        categoryCodeLookup c = none) ∧
    (∀ (normCodes : List NormInfo) (resources : List ResourceInfo),
      ∀ norm ∈ buildNormResourceRelationships normCodes resources,
      ∀ rs, norm.resources = some rs →
      ∀ rc ∈ rs, rc.categoryCode =
        if rc.isPrimary then 5 else (categoryCodeLookup rc.category).getD 5) ∧
    (parseConsumptionValue "(2.0)" =
        { consumption := "2.0", isPrimary := true } ∧
      (buildNormResourceRelationships [normB] [resB]).map
        (fun n => n.resources) = [some [rcB]]) := by
  refine ⟨⟨rfl, rfl, rfl, ?_⟩, ?_, by decide, by decide⟩
  · intro c h1 h2 h3
    unfold categoryCodeLookup
    simp [h1, h2, h3]
  · intro normCodes resources norm hnorm rs hrs rc hrc
    unfold buildNormResourceRelationships at hnorm
    obtain ⟨n0, hn0, hnn⟩ := List.mem_map.mp hnorm
    subst hnn
    have hrs2 := Option.some.inj hrs
    subst hrs2
    revert rc hrc
    refine foldl_mem_invariant _ _ ?_ resources [] (by simp)
    intro acc resource x hacc hx
    dsimp only at hx
    revert x hx
    refine foldl_mem_invariant _ _ ?_ (List.range resource.names.length) acc
      hacc
    intro acc2 nameIndex x hacc2 hx
    split at hx
    · exact hacc2 x hx
    · split at hx
      · rcases List.mem_append.mp hx with h1 | h1
        · exact hacc2 x h1
        · have hx2 := List.mem_singleton.mp h1
          subst hx2
          rfl
      · exact hacc2 x hx

/-- C2 witness: the override component applied to the Scenario B output. -/
theorem C2_witness :
    rcB.categoryCode =
      if rcB.isPrimary then 5 else (categoryCodeLookup rcB.category).getD 5 :=
  C2_theorem.2.1 [normB] [resB] { normB with resources := some [rcB] }
    (by decide) [rcB] (by decide) rcB (by decide)

/-- C3 counterexample: the token `" 5 "` is neither empty nor `"-"` nor
`"0"` nor parenthesised, so the claim says it reaches the output as the
token itself; the parser instead trims it to `"5"`. -/
theorem C3_counterexample :
    (" 5 " : String) ≠ "" ∧ (" 5 " : String) ≠ "-" ∧
    (" 5 " : String) ≠ "0" ∧ isParenWrapped " 5 " = false ∧
    parseConsumptionValue " 5 " =
      { consumption := "5", isPrimary := false } ∧
    ("5" : String) ≠ " 5 " := by
  refine ⟨by decide, by decide, by decide, by decide, by decide, by decide⟩

/-- C3 (amended): empty/`-`/`0` tokens give `("0", false)`; every other
token is first trimmed, its `isPrimary` flag is exactly whether the trimmed
token is fully parenthesised, and the value is the trimmed token — with the
parentheses stripped when primary — kept verbatim as text; in particular
`0.122` reaches the emitted `ResourceConsumption` unchanged. -/
theorem C3_theorem :
    (∀ s : String, jsTrim s = s → s ≠ "" → s ≠ "-" → s ≠ "0" →
      isParenWrapped s = false →
      parseConsumptionValue s = { consumption := s, isPrimary := false }) ∧
    (∀ s : String, jsTrim s = s → s ≠ "" → s ≠ "-" → s ≠ "0" →
      isParenWrapped s = true →
      parseConsumptionValue s =
        { consumption := String.mk ((s.toList.drop 1).dropLast),
          isPrimary := true }) ∧
    (parseConsumptionValue "" = { consumption := "0", isPrimary := false } ∧
      parseConsumptionValue "-" =
        { consumption := "0", isPrimary := false } ∧
      parseConsumptionValue "0" =
        { consumption := "0", isPrimary := false }) ∧
    (parseConsumptionValue "0.122" =
        { consumption := "0.122", isPrimary := false } ∧
      (buildNormResourceRelationships [normB] [resA]).map (fun n =>
        (n.resources.getD []).map (fun rc => (rc.consumption, rc.categoryCode)))
        = [[("0.122", 1)]]) := by
  refine ⟨?_, ?_, ⟨by decide, by decide, by decide⟩, by decide, by decide⟩
  · intro s htrim hne hnd hn0 hparen
    unfold parseConsumptionValue
    have hts : ¬ jsTrim s = "" := by rw [htrim]; exact hne
    split_ifs with hcond
    · exfalso
      simp only [Bool.or_eq_true, decide_eq_true_eq] at hcond
      rcases hcond with ((h | h) | h) | h
      · exact hne h
      · exact hts h
      · exact hnd h
      · exact hn0 h
    · simp [htrim, hparen]
  · intro s htrim hne hnd hn0 hparen
    unfold parseConsumptionValue
    have hts : ¬ jsTrim s = "" := by rw [htrim]; exact hne
    split_ifs with hcond
    · exfalso
      simp only [Bool.or_eq_true, decide_eq_true_eq] at hcond
      rcases hcond with ((h | h) | h) | h
      · exact hne h
      · exact hts h
      · exact hnd h
      · exact hn0 h
    · simp [htrim, hparen]

/-- C3 witness: the non-parenthesised component applied to `0.122`. -/
theorem C3_witness :
    parseConsumptionValue "0.122" =
      { consumption := "0.122", isPrimary := false } :=
  C3_theorem.1 "0.122" (by decide) (by decide) (by decide) (by decide)
    (by decide)

/-- C4 counterexample: on `g4cex` the cell directly above the first norm
code reads `单位：100m`, yet the parsed unit is the constant `台` and the
full name is `baseName + " " + spec + "&台"` — the regex/see-table unit
logic of the claim does not exist in the code. -/
theorem C4_counterexample :
    getCellValue g4cex 2 2 = "单位：100m" ∧
    getCellValue g4cex 3 2 = "1B-1" ∧
    parseNormNamesRows g4cex 1 8 1 5 (some codes4) = some res4 ∧
    res4.normNames.map (fun nn => nn.unit) = [some "台"] ∧
    res4.normNames.map (fun nn => nn.fullName) = ["减振台座 单位：100m&台"] ∧
    ("台" : String) ≠ "100m" := by
  refine ⟨by decide, by decide, by decide, by decide, by decide, by decide⟩

/-- The shape of every norm-name record: hardcoded unit `台`, full name
assembled from the record's own base name and specification. -/
theorem mkNormName_shape (g : ParsedExcelData) (labelRow : Int)
    (ni : NormInfo) :
    (mkNormName g labelRow ni).unit = some "台" ∧
    (mkNormName g labelRow ni).fullName = (mkNormName g labelRow ni).baseName
      ++ (match (mkNormName g labelRow ni).spec with
          | some sp => " " ++ sp
          | none => "") ++ "&" ++ "台" := by
  unfold mkNormName
  dsimp only
  by_cases hk : (getCellValue g (labelRow + 1) ni.col != "" &&
      getCellValue g (labelRow + 1) ni.col != getCellValue g labelRow ni.col)
      = true
  · simp [hk]
  · simp [hk]

/-- C4 (amended): whenever `parseNormNamesRows` succeeds, every parsed norm
name carries the hardcoded unit `台`, and its full name is the base name,
optionally followed by a space and the specification cell, followed by
`&台` — the unit is never read from the grid. -/
theorem C4_theorem :
    ∀ (g : ParsedExcelData) (startRow endRow startCol endCol : Int)
      (codes : List NormInfo) (res : NormNamesRows),
      parseNormNamesRows g startRow endRow startCol endCol (some codes) =
        some res →
      ∀ nn ∈ res.normNames, nn.unit = some "台" ∧
        nn.fullName = nn.baseName ++
          (match nn.spec with | some sp => " " ++ sp | none => "") ++
          "&" ++ "台" := by
  intro g startRow endRow startCol endCol codes res hres nn hnn
  unfold parseNormNamesRows at hres
  dsimp only at hres
  split at hres
  · have hres2 := Option.some.inj hres
    subst hres2
    dsimp only at hnn
    obtain ⟨ni, hni, hnn2⟩ := List.mem_map.mp hnn
    subst hnn2
    exact mkNormName_shape g _ ni
  · simp at hres

/-- C4 witness: the amended statement applied to the `g4cex` parse. -/
theorem C4_witness :
    nn4.unit = some "台" ∧
    nn4.fullName = nn4.baseName ++
      (match nn4.spec with | some sp => " " ++ sp | none => "") ++
      "&" ++ "台" :=
  C4_theorem g4cex 1 8 1 5 codes4 res4 (by decide) nn4 (by decide)

/-- C5 counterexample: the table `t5` (anchored at row 5) has no heading
above it in `g5cex`; the only chapter heading sits below it at row 10.
The builder attaches the table to a `Fallback Tables` subsection *inside
that chapter* — there is no root-level "unassigned" bucket in the output at
all — refuting "attached to a synthetic unassigned bucket at the document
root, never attached to an unrelated chapter". -/
theorem C5_counterexample :
    t5.range.startRow = 5 ∧
    (collectStructuralHeaders g5cex).map (fun h => (h.row, h.htype)) =
      [(10, HeaderType.chapter)] ∧
    (buildHierarchicalStructure g5cex [t5]).map (fun ch => ch.id) =
      ["chapter_一"] ∧
    (buildHierarchicalStructure g5cex [t5]).map (fun ch =>
      ch.sections.map (fun sec => (sec.id, sec.subSections.map (fun ss =>
        (ss.id, ss.name, ss.tableAreas.map (fun t => t.id)))))) =
      [[("section_chapter_一_fallback",
         [("subsection_section_chapter_一_fallback_fallback",
           "Fallback Tables", ["table_5_3"])])]] := by
  refine ⟨by decide, by decide, by decide, by decide⟩

/-- C5 (amended): a table with no preceding heading is attached to a
fallback subsection created inside the *first chapter* when any chapter
exists in the grid, and is silently dropped when no chapter exists; the
returned document carries no marker for the condition. -/
theorem C5_theorem :
    ((buildHierarchicalStructure g5cex [t5]).map (fun ch =>
      (ch.id, ch.sections.map (fun sec => (sec.id,
        sec.subSections.map (fun ss =>
          (ss.name, ss.tableAreas.map (fun t => t.id))))))) =
      [("chapter_一", [("section_chapter_一_fallback",
        [("Fallback Tables", ["table_5_3"])])])]) ∧
    buildHierarchicalStructure g5empty [t5] = [] ∧
    collectStructuralHeaders g5empty = [] := by
  refine ⟨by decide, rfl, by decide⟩

/-- C6 counterexample: the parse stamps `metadata.structuredAt` with the
wall-clock time, so the same empty grid parsed at two different instants
yields documents that are not deep-equal. -/
theorem C6_counterexample :
    parseStructure g6empty "2024-01-01T00:00:00.000Z" ≠
      parseStructure g6empty "2024-01-01T00:00:00.001Z" := by
  intro h
  have h2 := congrArg (fun d => d.metadata.structuredAt) h
  exact absurd h2 (by decide)

/-- C6 (amended): everything except the `structuredAt` timestamp — the
chapter tree and the grid extents — is a function of the grid alone, and
`structuredAt` is exactly the ambient time passed in. -/
theorem C6_theorem :
    ∀ (g : ParsedExcelData) (t1 t2 : String),
      (parseStructure g t1).chapters = (parseStructure g t2).chapters ∧
      (parseStructure g t1).metadata.totalRows =
        (parseStructure g t2).metadata.totalRows ∧
      (parseStructure g t1).metadata.totalCols =
        (parseStructure g t2).metadata.totalCols ∧
      (parseStructure g t1).metadata.structuredAt = t1 := by
  intro g t1 t2
  exact ⟨rfl, rfl, rfl, rfl⟩

/-- A `(1)`-pattern cell in body (SimSun) type. -/
def simSunParenCell : CellData := mkCell 1 1 "(1)单杆" (some "SimSun") false

/-- A `(1)`-pattern cell in heading (SimHei) type. -/
def simHeiParenCell : CellData := mkCell 1 1 "(1)单杆" (some "SimHei") false

/-- A `digits.`-pattern cell in heading type. -/
def simHeiDigitsCell : CellData :=
  mkCell 1 1 "1.工地运输" (some "SimHei") false

/-- C7 counterexample: `(1)单杆` matches the level-3 `(digits)` pattern but
is rejected in SimSun type, and `1.工地运输` (the level-2 `digits.` pattern)
is never classified as a subsection heading in any typeface — both contradict
"classified as a subsection heading regardless of the cell's typeface". -/
theorem C7_counterexample :
    hasParenDigitsPattern "(1)单杆" = true ∧
    isSubSectionTitle "(1)单杆" (some simSunParenCell) = false ∧
    strStartsWith "1.工地运输" "1." = true ∧
    isSubSectionTitle "1.工地运输" (some simHeiDigitsCell) = false ∧
    isSubSectionTitle "1.工地运输"
      (some (mkCell 1 1 "1.工地运输" (some "SimSun") false)) = false := by
  refine ⟨by decide, by decide, by decide, by decide, by decide⟩

/-- C7 (amended): `isSubSectionTitle` accepts only SimHei cells, and only
the spaced `CN-numeral 、` pattern or the `(digits)` pattern — the `digits.`
pattern is never a subsection heading. -/
theorem C7_theorem :
    (∀ (v : String) (c : Option CellData), isSubSectionTitle v c = true →
        (c.bind (fun x => x.fontName)) = some "SimHei") ∧
    (∀ (v : String) (c : Option CellData), isSubSectionTitle v c = true →
        (hasSpacedSubSectionPattern v || hasParenDigitsPattern v) = true) ∧
    isSubSectionTitle "(1)单杆" (some simHeiParenCell) = true := by
  refine ⟨?_, ?_, by decide⟩
  · intro v c h
    unfold isSubSectionTitle at h
    split_ifs at h with h1 h2
    all_goals simp_all
  · intro v c h
    unfold isSubSectionTitle at h
    split_ifs at h with h1 h2
    all_goals simp_all

/-- C7 witness: the typeface component applied to a SimHei `(digits)` cell. -/
theorem C7_witness :
    ((some simHeiParenCell).bind (fun x => x.fontName)) = some "SimHei" :=
  C7_theorem.1 "(1)单杆" (some simHeiParenCell) (by decide)

/-- C8 counterexample: in `g8cex` the `续表` marker sits at row 5 — two rows
*below* the bounding-box start (row 3), not above it — and no earlier table
shares a code, yet the linker sets `isContinuation = true` with no recorded
target — refuting both the scan direction and the conditional setting of
the flag. -/
theorem C8_counterexample :
    getCellValue g8cex 5 1 = "续表" ∧
    isContinuationTable (getCellValue g8cex 5 1) = true ∧
    (detectTableAreas g8cex).map (fun t =>
      (t.id, t.range.startRow, t.isContinuation, t.continuationOf)) =
      [("table_5_3", 3, true, none)] := by
  refine ⟨by decide, by decide, by decide⟩

/-- C8 (amended): the linker scans column 1 from two rows above to two rows
below the box start; a marker sets `isContinuation = true` unconditionally,
and `continuationOf` records the most recent earlier table sharing a norm
code when one exists (a recorded target always comes with the flag set);
Scenario C links the second `g8scn` table to the first. -/
theorem C8_theorem :
    (∀ (g : ParsedExcelData), ∀ t ∈ detectTableAreas g,
        t.continuationOf ≠ none → t.isContinuation = true) ∧
    getCellValue g8scn 27 1 = "续表" ∧
    (detectTableAreas g8scn).map (fun t =>
      (t.id, t.range.startRow, t.isContinuation, t.continuationOf)) =
      [("table_5_3", 3, false, none),
       ("table_30_3", 28, true, some "table_5_3")] ∧
    (detectTableAreas g8cex).map (fun t =>
      (t.isContinuation, t.continuationOf)) = [(true, none)] := by
  refine ⟨?_, by decide, by decide, by decide⟩
  intro g t ht hsome
  unfold detectTableAreas at ht
  obtain ⟨t0, ht0, hcase⟩ :=
    processContinuationTables_mem g (detectRawTables g).2 t ht
  have hbase := detectRawTables_base g t0 ht0
  rcases hcase with rfl | ⟨prev, rfl⟩
  · exact absurd hbase.2.1 hsome
  · rfl

/-- C8 witness: the flag component applied to the linked table of `g8scn`. -/
theorem C8_witness :
    ((detectTableAreas g8scn).getD 1 dummyTable).isContinuation = true := by
  have hlen : (detectTableAreas g8scn).length = 2 := by decide
  have hmem : (detectTableAreas g8scn).getD 1 dummyTable ∈
      detectTableAreas g8scn := by
    rcases h : detectTableAreas g8scn with _ | ⟨a, _ | ⟨b, l⟩⟩
    · rw [h] at hlen; simp at hlen
    · rw [h] at hlen; simp at hlen
    · simp [List.getD]
  exact C8_theorem.1 g8scn _ hmem (by decide)

/-- C9 counterexample: the cell at (1,2) of `g9cex` classifies as a chapter
heading, but the collector reads only column 1, so no header is collected
and the built document is empty — refuting "collects every heading cell of
the grid, wherever it appears, in any column". -/
theorem C9_counterexample :
    isChapterTitle "第一章 机械设备安装工程" (getCell g9cex 1 2) = true ∧
    collectStructuralHeaders g9cex = [] ∧
    buildHierarchicalStructure g9cex [] = [] := by
  refine ⟨by decide, by decide, rfl⟩

/-- C9 (amended): the collected headers are a function of column 1 alone
(grids agreeing on column 1 and row count collect identical header lists),
and the single forward scan yields headers in strictly increasing row
order. -/
theorem C9_theorem :
    (∀ (g g' : ParsedExcelData), g.totalRows = g'.totalRows →
        (∀ r : Int, getCell g r 1 = getCell g' r 1) →
        collectStructuralHeaders g = collectStructuralHeaders g') ∧
    (∀ g : ParsedExcelData, (collectStructuralHeaders g).Pairwise
        (fun h1 h2 => h1.row < h2.row)) := by
  constructor
  · intro g g' hrows hcell
    have hf : headerAtRow g = headerAtRow g' := by
      funext r
      have hv : getCellValue g r 1 = getCellValue g' r 1 := by
        unfold getCellValue
        rw [hcell r]
      unfold headerAtRow
      rw [hv, hcell r]
    rw [collectStructuralHeaders_eq, collectStructuralHeaders_eq, hrows, hf]
  · intro g
    rw [collectStructuralHeaders_eq g]
    exact pairwise_row_lt_flatMap _ _ (fun r x hx => headerAtRow_row g r x hx)
      (headerAtRow_length g) _ (intRange_pairwise 1 g.totalRows)

/-- C9 witness: a grid whose only cell is a column-2 chapter heading
collects the same (empty) header list as the cell-free grid. -/
theorem C9_witness :
    collectStructuralHeaders g9cex = collectStructuralHeaders g9b := by
  apply C9_theorem.1 g9cex g9b rfl
  intro r
  simp [getCell, g9cex, g9b, mkCell]

end ParseStructured
